import Mathlib

/-!
Verification of the streaming-transcription core of the AudioLogPrototype
repository.

The definitions below are shallow embeddings of the JavaScript source:

* `appendFinal`, `appendInterim`, `reconcileStep`, `runReconciler` model the
  transcript reconciler, which appears verbatim both in the
  `socket.onmessage` handler of `src/App.js` (final branch at lines
  153 to 168, interim branch at lines 169 to 191) and in the
  `onTranscriptReceived` callback of the `useDeepgram` hook.
* `connectParams`, `sendAudio`, `serviceOnMessage`, `serviceOnCloseActions`,
  `firstOnOpenHandler`, `promiseOnOpenHandler` model
  `src/services/deepgramService.js`.
* `appOnMessage` and `appOnCloseActions` model the corresponding handlers of
  the monolithic `src/App.js`.
* `meterNormalize` and `appendMeter` model the metering interval body.
* `segTick` and `runRotator` model the segment-rotation interval body
  (`processCurrentSegment`).

Transcripts are modelled as lists of characters (`Str`) so that the
JavaScript index-based operations (`lastIndexOf`, `substring`, `endsWith`,
indexing the last character) have direct, executable counterparts.
-/

abbrev Str := List Char

/-- JavaScript `s.endsWith(t)` on the character-list model.  The JavaScript
function returns true for the empty suffix, as does `List.isSuffixOf`. -/
def jsEndsWith (s t : Str) : Bool := t.isSuffixOf s

/-- The characters after which the final-result branch does not insert a
space separator: space, period, question mark, exclamation mark, comma
(the array literal in `src/App.js` line 164). -/
def noSpaceChars : Str := [' ', '.', '?', '!', ',']

/-- The condition `prev.length > 0 && ![...].includes(prev[prev.length-1])`
from the final-result branch.  Indexing the last character of a non-empty
list is `List.getLast?`. -/
def needsSpace (prev : Str) : Bool :=
  match prev.getLast? with
  | none => false
  | some c => !(noSpaceChars.contains c)

/-- Final-result branch of the reconciler (`src/App.js` lines 153 to 168):
a final text that is already a suffix of the transcript is discarded,
otherwise it is appended after an optional single space. -/
def appendFinal (prev t : Str) : Str :=
  if jsEndsWith prev t then prev
  else prev ++ (if needsSpace prev then [' '] else []) ++ t

/-- Whether the pattern `pat` occurs in `s` starting at character index
`i`. -/
def occursAt (s pat : Str) (i : Nat) : Bool :=
  (s.drop i).take pat.length == pat

/-- Downward search for the greatest occurrence index that is at most the
fuel argument. -/
def lastIndexAux (s pat : Str) : Nat → Int
  | 0 => if occursAt s pat 0 then 0 else -1
  | n + 1 => if occursAt s pat (n + 1) then ((n : Int) + 1) else lastIndexAux s pat n

/-- JavaScript `s.lastIndexOf(pat)`: the greatest character index at which
`pat` occurs in `s`, and -1 when it does not occur. -/
def jsLastIndexOf (s pat : Str) : Int :=
  lastIndexAux s pat s.length

/-- `Math.max(prev.lastIndexOf(". "), prev.lastIndexOf("? "),
prev.lastIndexOf("! "))` from the interim branch. -/
def lastCompleteSentenceEnd (prev : Str) : Int :=
  max (max (jsLastIndexOf prev ['.', ' ']) (jsLastIndexOf prev ['?', ' ']))
    (jsLastIndexOf prev ['!', ' '])

/-- The prefix kept by the interim branch: `prev.substring(0,
lastCompleteSentenceEnd + 2)` when a sentence end was found, and the empty
string otherwise. -/
def completePart (prev : Str) : Str :=
  if 0 ≤ lastCompleteSentenceEnd prev then
    prev.take ((lastCompleteSentenceEnd prev).toNat + 2)
  else []

/-- Interim branch of the reconciler (`src/App.js` lines 169 to 191):
replace everything after the last complete sentence end with the interim
text; when no sentence end exists the whole transcript is replaced. -/
def appendInterim (prev t : Str) : Str :=
  if 0 ≤ lastCompleteSentenceEnd prev then
    prev.take ((lastCompleteSentenceEnd prev).toNat + 2) ++ t
  else t

/-- One recognition event carrying text, as handed to the reconciler. -/
structure RecEvent where
  text : Str
  isFinal : Bool
  deriving DecidableEq

/-- One reconciler update: the final branch for final events, the interim
branch for interim events when interim results are enabled, and no change
otherwise. -/
def reconcileStep (interimEnabled : Bool) (prev : Str) (e : RecEvent) : Str :=
  if e.isFinal then appendFinal prev e.text
  else if interimEnabled then appendInterim prev e.text
  else prev

/-- The transcript produced by feeding a sequence of recognition events to
the reconciler, starting from the empty transcript of a fresh session. -/
def runReconciler (interimEnabled : Bool) (evs : List RecEvent) : Str :=
  evs.foldl (reconcileStep interimEnabled) []

/-- The transcript produced by a sequence of final-result texts alone. -/
def runFinals (fs : List Str) : Str :=
  fs.foldl appendFinal []

/-- Separator prescribed by the wording of claim C1: a single space exactly
when the transcript is non-empty and its last character is not a sentence
terminator (period, question mark, exclamation mark) or comma. -/
def claimSepC1 (prev : Str) : Str :=
  if prev ≠ [] ∧ prev.getLastD ' ' ∉ ['.', '?', '!', ','] then [' '] else []

/-- The append step prescribed by the wording of claim C1. -/
def claimAppendFinalC1 (prev t : Str) : Str :=
  if jsEndsWith prev t then prev else prev ++ claimSepC1 prev ++ t

/-- The transcript that claim C1 predicts for a sequence of final texts. -/
def claimTranscriptC1 (fs : List Str) : Str :=
  fs.foldl claimAppendFinalC1 []

/-- The amended separator: the code additionally suppresses the space when
the transcript already ends with a space. -/
def amendedSep (prev : Str) : Str :=
  if prev = [] then []
  else if prev.getLastD ' ' ∈ [' ', '.', '?', '!', ','] then [] else [' ']

/-- The amended append step for final texts. -/
def amendedAppendFinal (prev t : Str) : Str :=
  if jsEndsWith prev t then prev else prev ++ amendedSep prev ++ t

/-- Connection options accepted by `DeepgramService.connect`
(`src/services/deepgramService.js` line 45). -/
structure ConnectOptions where
  interimResults : Bool
  punctuate : Bool
  smartFormat : Bool

/-- JavaScript `b ? "true" : "false"`. -/
def boolParam (b : Bool) : String := if b then "true" else "false"

/-- The query parameters appended to the WebSocket URL by
`DeepgramService.connect` (`src/services/deepgramService.js` lines 66 to
80), in append order. -/
def connectParams (o : ConnectOptions) : List (String × String) :=
  [("encoding", "linear16"),
   ("sample_rate", "16000"),
   ("channels", "1"),
   ("interim_results", "false"),
   ("punctuate", boolParam o.punctuate),
   ("smart_format", boolParam o.smartFormat),
   ("model", "general"),
   ("language", "en-US"),
   ("endpointing", "800"),
   ("vad_events", "true"),
   ("continuous", "true")]

/-- The numeric WebSocket ready states, as in the browser API. -/
def wsCONNECTING : Nat := 0

/-- Ready state of an open WebSocket. -/
def wsOPEN : Nat := 1

/-- Ready state of a closing WebSocket. -/
def wsCLOSING : Nat := 2

/-- Ready state of a closed WebSocket. -/
def wsCLOSED : Nat := 3

/-- Outbound wire messages of the client. -/
inductive WireMsg where
  | keepAlive
  | closeStream
  | audioFrame (len : Nat)
  deriving DecidableEq

/-- The state that `DeepgramService.sendAudio` can observe: the socket
field (`none` models `this.socket === null`, otherwise the ready state of
the socket object) together with the transcript, which the send path never
touches. -/
structure DGClientState where
  socket : Option Nat
  transcript : Str
  deriving DecidableEq

/-- `DeepgramService.sendAudio` (`src/services/deepgramService.js` lines
177 to 210): returns whether sending succeeded, the list of wire messages
sent, and the resulting client state.  All failure branches return false
inside the try block, so no exception reaches the caller. -/
def sendAudio (st : DGClientState) (audioLen : Nat) :
    Bool × List WireMsg × DGClientState :=
  match st.socket with
  | none => (false, [], st)
  | some rs =>
    if rs ≠ wsOPEN then (false, [], st)
    else if audioLen = 0 then (false, [], st)
    else (true, [.keepAlive, .audioFrame audioLen], st)

/-- The individual steps performed by the two close handlers. -/
inductive CloseAction where
  | logClose
  | setStatusDisconnected
  | clearConnectedFlag
  | reconnectAttemptLog
  | invokeConnect
  | surfaceClosedEvent
  deriving DecidableEq

/-- The `socket.onclose` handler of `DeepgramService.connect`
(`src/services/deepgramService.js` lines 134 to 138): log, clear the local
connected flag, invoke the `onClose` callback.  No reconnect is attempted. -/
def serviceOnCloseActions : List CloseAction :=
  [.logClose, .clearConnectedFlag, .surfaceClosedEvent]

/-- The `socket.onclose` handler of `setupDeepgramSocket` in `src/App.js`
(lines 209 to 220), parameterised by the value of the `isRecording` flag
the handler closure reads: log and surface the disconnected status, clear
the connected flag, then attempt one reconnect only when the flag is
true. -/
def appOnCloseActions (isRecording : Bool) : List CloseAction :=
  [.logClose, .setStatusDisconnected, .clearConnectedFlag] ++
    (if isRecording then [.reconnectAttemptLog, .invokeConnect] else [])

/-- The individual steps performed by an `onopen` handler. -/
inductive OnOpenAction where
  | logOpened
  | setConnectedFlag
  | sendKeepAlive
  | resolvePromiseTrue
  deriving DecidableEq

/-- The `socket.onopen` handler assigned first by `DeepgramService.connect`
(`src/services/deepgramService.js` lines 98 to 104): log, set the
connected flag, send a KeepAlive control message. -/
def firstOnOpenHandler : List OnOpenAction :=
  [.logOpened, .setConnectedFlag, .sendKeepAlive]

/-- The replacement `socket.onopen` handler assigned inside the connection
promise (`src/services/deepgramService.js` lines 150 to 154): set the
connected flag, log, resolve the promise with true.  It sends nothing. -/
def promiseOnOpenHandler : List OnOpenAction :=
  [.setConnectedFlag, .logOpened, .resolvePromiseTrue]

/-- The handler actually installed when the open event can fire: the
promise executor runs synchronously after the socket is constructed; when
the ready state is not yet OPEN it overwrites the first handler
(`src/services/deepgramService.js` lines 146 to 155). -/
def effectiveOnOpenHandler (readyStateIsOpenAtSetup : Bool) : List OnOpenAction :=
  if readyStateIsOpenAtSetup then firstOnOpenHandler else promiseOnOpenHandler

/-- `(Math.max(-60, levelDb) + 60) / 60`, the metering conversion in
`src/App.js` lines 446 to 447 and `src/hooks/useAudioRecording.js` lines
289 to 290. -/
def meterNormalize (levelDb : ℚ) : ℚ :=
  (max (-60) levelDb + 60) / 60

/-- The retention bound on metering samples (`maxMeteringValues`). -/
def maxMeteringValues : Nat := 100

/-- The metering-buffer update: append, then keep only the last
`maxMeteringValues` entries (`newValues.slice(-maxMeteringValues)`). -/
def appendMeter (prev : List ℚ) (v : ℚ) : List ℚ :=
  let newValues := prev ++ [v]
  if maxMeteringValues < newValues.length then
    newValues.drop (newValues.length - maxMeteringValues)
  else newValues

/-- The environment observations one rotation tick can make, covering every
branch of `processCurrentSegment` (`src/App.js` lines 336 to 418): whether
the recording reference exists, whether the capture is active, whether a
URI is available, the recorded duration, and whether stopping the
recording succeeds. -/
structure TickInput where
  hasRef : Bool
  isRec : Bool
  hasUri : Bool
  durationMillis : Nat
  stopSucceeds : Bool
  deriving DecidableEq

/-- One rotation tick: from the current segment counter and the tick
observations, the new counter and the sequence numbers of the segments
handed downstream by this tick.  The only branch that emits is the
successful stop branch, which calls
`processAndSendAudio(uri, streamInterval++)`; every other branch (missing
reference, inactive capture needing restart, missing URI, duration below
500 ms, failed stop followed by recovery) emits nothing and leaves the
counter unchanged. -/
def segTick (counter : Nat) (i : TickInput) : Nat × List Nat :=
  if !i.hasRef then (counter, [])
  else if !i.isRec then (counter, [])
  else if !i.hasUri then (counter, [])
  else if i.durationMillis < 500 then (counter, [])
  else if !i.stopSucceeds then (counter, [])
  else (counter + 1, [counter])

/-- Fold step accumulating the emitted sequence numbers across ticks. -/
def rotatorStep (st : Nat × List Nat) (i : TickInput) : Nat × List Nat :=
  ((segTick st.1 i).1, st.2 ++ (segTick st.1 i).2)

/-- A whole session of the rotator: the counter starts at 0
(`let streamInterval = 0`), and ticks fire in any pattern. -/
def runRotator (ticks : List TickInput) : Nat × List Nat :=
  ticks.foldl rotatorStep (0, [])

/-- A decoded inbound message: the `type` discriminant (absent fields are
`none`), the `channel.alternatives` array where each entry carries its
optional `transcript` field, and the `is_final` flag. -/
structure DGResponse where
  rtype : Option String
  channelAlternatives : Option (List (Option Str))
  isFinal : Bool

/-- The recognition events surfaced by the service message handler. -/
inductive ServiceEvent where
  | transcriptReceived (text : Str) (isFinal : Bool)
  | speechStarted
  | speechFinished
  | serviceError
  deriving DecidableEq

/-- JavaScript `s.trim()`: drop whitespace from both ends. -/
def jsTrim (s : Str) : Str :=
  ((s.dropWhile Char.isWhitespace).reverse.dropWhile Char.isWhitespace).reverse

/-- The guard `transcript && transcript.trim()`: a string is truthy when
non-empty, and the guard additionally requires the trimmed string to be
truthy. -/
def transcriptTruthy (t : Str) : Bool :=
  !t.isEmpty && !(jsTrim t).isEmpty

/-- The `socket.onmessage` handler of `DeepgramService.connect`
(`src/services/deepgramService.js` lines 106 to 132).  The argument models
the result of `JSON.parse`: `none` is a message that fails to decode, in
which case the surrounding try/catch logs the parse failure and drops the
message.  The result is the list of surfaced events and the list of log
lines. -/
def serviceOnMessage (raw : Option DGResponse) :
    List ServiceEvent × List String :=
  match raw with
  | none => ([], ["Error parsing Deepgram response"])
  | some r =>
    if r.rtype = some "Results" then
      match r.channelAlternatives with
      | some (firstAlt :: _) =>
        match firstAlt with
        | some t =>
          if transcriptTruthy t then
            ([.transcriptReceived t r.isFinal], ["Transcript received"])
          else ([], [])
        | none => ([], [])
      | _ => ([], [])
    else if r.rtype = some "SpeechStarted" then
      ([.speechStarted], ["Speech detected by Deepgram"])
    else if r.rtype = some "SpeechFinished" then
      ([.speechFinished], ["Speech finished"])
    else if r.rtype = some "Error" then
      ([.serviceError], ["Deepgram error"])
    else ([], [])

/-- The events surfaced for a whole inbound message sequence. -/
def runServiceMessages (msgs : List (Option DGResponse)) : List ServiceEvent :=
  msgs.foldr (fun m acc => (serviceOnMessage m).1 ++ acc) []

/-- Applying surfaced events to a transcript through the reconciler; events
without text leave the transcript unchanged. -/
def applyServiceEvents (interimEnabled : Bool) (tr : Str)
    (evs : List ServiceEvent) : Str :=
  evs.foldl
    (fun t e =>
      match e with
      | .transcriptReceived txt fin => reconcileStep interimEnabled t ⟨txt, fin⟩
      | _ => t)
    tr

/-- The `socket.onmessage` handler of `setupDeepgramSocket` in `src/App.js`
(lines 136 to 207), which calls `JSON.parse` with no try/catch: a message
that fails to decode makes the exception escape the handler, modelled as
`Except.error`.  On success the handler updates the transcription state. -/
def appOnMessage (raw : Option DGResponse) (interimEnabled : Bool)
    (tr : Str) : Except Unit Str :=
  match raw with
  | none => Except.error ()
  | some r =>
    if r.rtype = some "Results" then
      match r.channelAlternatives with
      | some (firstAlt :: _) =>
        match firstAlt with
        | some t =>
          if transcriptTruthy t then
            if r.isFinal then .ok (appendFinal tr t)
            else if interimEnabled then .ok (appendInterim tr t)
            else .ok tr
          else .ok tr
        | none => .ok tr
      | _ => .ok tr
    else .ok tr

theorem appendFinal_eq_amended : appendFinal = amendedAppendFinal := by
  funext prev t
  unfold appendFinal amendedAppendFinal needsSpace amendedSep noSpaceChars
  cases h : prev.getLast? with
  | none =>
    have hnil : prev = [] := List.getLast?_eq_none_iff.mp h
    subst hnil
    simp
  | some c =>
    have hne : prev ≠ [] := by
      intro e
      subst e
      simp at h
    have hd : prev.getLastD ' ' = c := by
      rw [List.getLastD_eq_getLast?, h]
      rfl
    by_cases hc : c ∈ ([' ', '.', '?', '!', ','] : List Char) <;>
      simp [h, hd, hne, hc]

theorem lastIndexAux_occurs (s pat : Str) :
    ∀ n, 0 ≤ lastIndexAux s pat n →
      occursAt s pat (lastIndexAux s pat n).toNat = true := by
  intro n
  induction n with
  | zero =>
    intro h
    unfold lastIndexAux at h ⊢
    by_cases hc : occursAt s pat 0 = true
    · simp [hc]
    · simp [hc] at h
  | succ k ih =>
    intro h
    unfold lastIndexAux at h ⊢
    by_cases hc : occursAt s pat (k + 1) = true
    · have ht : (((k : Int) + 1)).toNat = k + 1 := by omega
      simp [hc, ht]
    · simp only [hc, if_neg] at h ⊢
      simp [hc]
      exact ih h

theorem jsLastIndexOf_occurs {s pat : Str} (h : 0 ≤ jsLastIndexOf s pat) :
    occursAt s pat (jsLastIndexOf s pat).toNat = true := by
  unfold jsLastIndexOf at h ⊢
  exact lastIndexAux_occurs s pat s.length h

theorem occursAt_take_suffix {s pat : Str} {i : Nat}
    (h : occursAt s pat i = true) : pat <:+ s.take (i + pat.length) := by
  unfold occursAt at h
  have he : (s.drop i).take pat.length = pat := by
    exact eq_of_beq h
  rw [List.take_add, he]
  exact ⟨s.take i, rfl⟩

theorem completePart_boundary {prev : Str}
    (hm : 0 ≤ lastCompleteSentenceEnd prev) :
    ['.', ' '] <:+ completePart prev ∨ ['?', ' '] <:+ completePart prev ∨
      ['!', ' '] <:+ completePart prev := by
  have hchoice : lastCompleteSentenceEnd prev = jsLastIndexOf prev ['.', ' '] ∨
      lastCompleteSentenceEnd prev = jsLastIndexOf prev ['?', ' '] ∨
      lastCompleteSentenceEnd prev = jsLastIndexOf prev ['!', ' '] := by
    unfold lastCompleteSentenceEnd
    rcases max_choice
        (max (jsLastIndexOf prev ['.', ' ']) (jsLastIndexOf prev ['?', ' ']))
        (jsLastIndexOf prev ['!', ' ']) with h1 | h1
    · rw [h1]
      rcases max_choice (jsLastIndexOf prev ['.', ' '])
          (jsLastIndexOf prev ['?', ' ']) with h2 | h2
      · exact Or.inl h2
      · exact Or.inr (Or.inl h2)
    · exact Or.inr (Or.inr h1)
  unfold completePart
  rw [if_pos hm]
  rcases hchoice with h | h | h
  · left
    have h0 : 0 ≤ jsLastIndexOf prev ['.', ' '] := h ▸ hm
    have hs := occursAt_take_suffix (jsLastIndexOf_occurs h0)
    rw [h]
    simpa using hs
  · right; left
    have h0 : 0 ≤ jsLastIndexOf prev ['?', ' '] := h ▸ hm
    have hs := occursAt_take_suffix (jsLastIndexOf_occurs h0)
    rw [h]
    simpa using hs
  · right; right
    have h0 : 0 ≤ jsLastIndexOf prev ['!', ' '] := h ▸ hm
    have hs := occursAt_take_suffix (jsLastIndexOf_occurs h0)
    rw [h]
    simpa using hs

/-- Claim C1 counterexample: with final texts "a " and "b", the code
suppresses the separator because the transcript already ends with a space,
while the claim formula, whose separator condition mentions only sentence
terminators and comma, inserts one, so the two transcripts differ. -/
theorem c1_counterexample :
    runFinals [['a', ' '], ['b']] = ['a', ' ', 'b'] ∧
    claimTranscriptC1 [['a', ' '], ['b']] = ['a', ' ', ' ', 'b'] ∧
    runFinals [['a', ' '], ['b']] ≠ claimTranscriptC1 [['a', ' '], ['b']] := by
  exact ⟨by decide, by decide, by decide⟩

/-- Claim C1 (amended): for every sequence of final texts fed to the
reconciler from an empty transcript, the result is the fold of the
duplicate-suppressing append whose separating space is inserted exactly
when the transcript is non-empty and its last character is not a space,
sentence terminator, or comma. -/
theorem c1_final_append_formula (fs : List Str) :
    runFinals fs = fs.foldl amendedAppendFinal [] := by
  unfold runFinals
  rw [appendFinal_eq_amended]

/-- Claim C2 counterexample: after the final result Hello is committed, the
interim result world replaces the whole transcript because no sentence
terminator followed by a space occurs in it, so committed text is altered
by an interim event; moreover, in the interim-interim-final scenario the
superseded interim text survives the final event, so interim text does
persist past the next event. -/
theorem c2_counterexample :
    runReconciler true
        [⟨['H', 'e', 'l', 'l', 'o'], true⟩, ⟨['w', 'o', 'r', 'l', 'd'], false⟩]
      = ['w', 'o', 'r', 'l', 'd'] ∧
    (['H', 'e', 'l', 'l', 'o'] : Str).isPrefixOf
        (runReconciler true
          [⟨['H', 'e', 'l', 'l', 'o'], true⟩,
           ⟨['w', 'o', 'r', 'l', 'd'], false⟩]) = false ∧
    runReconciler true
        [⟨"how ar".data, false⟩, ⟨"how are you".data, false⟩,
         ⟨"How are you?".data, true⟩]
      = "how are you How are you?".data := by
  exact ⟨by decide, by decide, by decide⟩

/-- Claim C2 (amended): an interim event replaces exactly the portion of
the transcript after the last occurrence of a sentence terminator followed
by a space (the whole transcript when none occurs): the result is always
the kept prefix followed by the interim text, the kept prefix is a prefix
of the previous transcript, and it is either empty or ends with one of the
three sentence boundaries. -/
theorem c2_interim_replaces_suffix (prev t : Str) :
    appendInterim prev t = completePart prev ++ t ∧
    completePart prev <+: prev ∧
    (completePart prev = [] ∨
      (['.', ' '] <:+ completePart prev ∨ ['?', ' '] <:+ completePart prev ∨
        ['!', ' '] <:+ completePart prev)) := by
  refine ⟨?_, ?_, ?_⟩
  · unfold appendInterim completePart
    by_cases hm : 0 ≤ lastCompleteSentenceEnd prev <;> simp [hm]
  · unfold completePart
    by_cases hm : 0 ≤ lastCompleteSentenceEnd prev
    · rw [if_pos hm]
      exact List.take_prefix _ _
    · rw [if_neg hm]
      exact List.nil_prefix
  · by_cases hm : 0 ≤ lastCompleteSentenceEnd prev
    · exact Or.inr (completePart_boundary hm)
    · left
      unfold completePart
      rw [if_neg hm]

/-- Claim C3 evidence: the connection query fixes encoding linear16, sample
rate 16000 and one channel, and reflects the punctuation and
smart-formatting options, but the interim-results parameter is hardcoded
to false for every caller option, including interimResults set to true. -/
theorem c3_interim_results_hardcoded :
    (∀ o : ConnectOptions,
      (connectParams o).lookup "interim_results" = some "false") ∧
    (connectParams ⟨true, true, true⟩).lookup "interim_results"
      = some "false" ∧
    (connectParams ⟨true, true, true⟩).lookup "encoding" = some "linear16" ∧
    (connectParams ⟨true, true, true⟩).lookup "sample_rate" = some "16000" ∧
    (connectParams ⟨true, true, true⟩).lookup "channels" = some "1" ∧
    (connectParams ⟨true, true, true⟩).lookup "punctuate" = some "true" ∧
    (connectParams ⟨true, false, false⟩).lookup "punctuate" = some "false" ∧
    (connectParams ⟨true, true, true⟩).lookup "smart_format" = some "true" ∧
    (connectParams ⟨true, false, false⟩).lookup "smart_format"
      = some "false" := by
  exact ⟨fun o => rfl, rfl, rfl, rfl, rfl, rfl, rfl, rfl, rfl⟩

/-- Claim C4 counterexample: the close handler installed by
DeepgramService.connect invokes connect zero times, not exactly once, when
an unsolicited close arrives while the session is active. -/
theorem c4_counterexample :
    serviceOnCloseActions.count CloseAction.invokeConnect = 0 ∧
    ¬ serviceOnCloseActions.count CloseAction.invokeConnect = 1 := by
  exact ⟨by decide, by decide⟩

/-- Claim C4 (amended): the service close handler never reconnects and only
surfaces the Closed event; the App.js close handler reconnects exactly once
per close when the recording flag it reads is true and never when it is
false, and its reconnect attempt comes after the disconnected status is
surfaced, not before. -/
theorem c4_close_handlers (b : Bool) :
    serviceOnCloseActions.count CloseAction.invokeConnect = 0 ∧
    serviceOnCloseActions =
      [.logClose, .clearConnectedFlag, .surfaceClosedEvent] ∧
    (appOnCloseActions b).count CloseAction.invokeConnect
      = (if b then 1 else 0) ∧
    appOnCloseActions true =
      [.logClose, .setStatusDisconnected, .clearConnectedFlag,
        .reconnectAttemptLog, .invokeConnect] ∧
    appOnCloseActions false =
      [.logClose, .setStatusDisconnected, .clearConnectedFlag] := by
  cases b <;> exact ⟨by decide, by decide, by decide, by decide, by decide⟩

/-- Claim C5: sendAudio called while the socket is absent or not in the
OPEN ready state returns false, transmits no wire message, and leaves the
client state, in particular the transcript, unchanged; the function is
total, so no exception reaches the caller. -/
theorem c5_send_requires_open (st : DGClientState) (n : Nat)
    (h : st.socket ≠ some wsOPEN) :
    (sendAudio st n).1 = false ∧ (sendAudio st n).2.1 = [] ∧
      (sendAudio st n).2.2 = st := by
  unfold sendAudio
  match hs : st.socket with
  | none => exact ⟨rfl, rfl, rfl⟩
  | some rs =>
    have hne : rs ≠ wsOPEN := by
      intro e
      exact h (by rw [hs, e])
    simp [hne]

/-- Concrete instance of claim C5 with no socket object present. -/
theorem c5_send_requires_open_witness :
    (sendAudio ⟨none, []⟩ 5).1 = false ∧ (sendAudio ⟨none, []⟩ 5).2.1 = [] ∧
      (sendAudio ⟨none, []⟩ 5).2.2 = (⟨none, []⟩ : DGClientState) :=
  c5_send_requires_open ⟨none, []⟩ 5 (by decide)

/-- Claim C6 evidence: the first onopen handler does send a KeepAlive, but
the connection promise overwrites it while the socket is still connecting,
and the handler that actually runs at open sends nothing. -/
theorem c6_keepalive_handler_overwritten :
    OnOpenAction.sendKeepAlive ∈ firstOnOpenHandler ∧
    OnOpenAction.sendKeepAlive ∉ effectiveOnOpenHandler false ∧
    effectiveOnOpenHandler false ≠ firstOnOpenHandler := by
  exact ⟨by decide, by decide, by decide⟩

/-- Claim C7 counterexample: a reading of 60 dB produces the stored sample
2, which lies outside the unit interval, because the conversion clamps only
at the floor. -/
theorem c7_counterexample :
    meterNormalize 60 = 2 ∧ ¬ meterNormalize 60 ≤ 1 := by
  have hmax : max (-60 : ℚ) 60 = 60 :=
    max_eq_right (by norm_num)
  constructor
  · unfold meterNormalize
    rw [hmax]
    norm_num
  · unfold meterNormalize
    rw [hmax]
    norm_num

/-- Claim C7 (amended): every stored sample is non-negative, a reading at
or below -60 dB maps to 0, a reading at or below 0 dB maps into the unit
interval, and after every append the buffer holds at most 100 samples and
is a suffix of the appended sequence, so the oldest samples are evicted
first. -/
theorem c7_metering_properties :
    (∀ m : ℚ, 0 ≤ meterNormalize m) ∧
    (∀ m : ℚ, m ≤ -60 → meterNormalize m = 0) ∧
    (∀ m : ℚ, m ≤ 0 → meterNormalize m ≤ 1) ∧
    (∀ (prev : List ℚ) (v : ℚ),
      (appendMeter prev v).length ≤ maxMeteringValues) ∧
    (∀ (prev : List ℚ) (v : ℚ), appendMeter prev v <:+ prev ++ [v]) := by
  refine ⟨?_, ?_, ?_, ?_, ?_⟩
  · intro m
    unfold meterNormalize
    have h1 : (-60 : ℚ) ≤ max (-60) m := le_max_left _ _
    have h2 : (0 : ℚ) ≤ max (-60) m + 60 := by linarith
    exact div_nonneg h2 (by norm_num)
  · intro m hm
    unfold meterNormalize
    rw [max_eq_left hm]
    norm_num
  · intro m hm
    unfold meterNormalize
    have h1 : max (-60 : ℚ) m ≤ 0 := max_le (by norm_num) hm
    rw [div_le_one (by norm_num : (0 : ℚ) < 60)]
    linarith
  · intro prev v
    unfold appendMeter maxMeteringValues
    dsimp only
    split
    · rw [List.length_drop]
      omega
    · omega
  · intro prev v
    unfold appendMeter
    dsimp only
    split
    · exact List.drop_suffix _ _
    · exact List.suffix_refl _

/-- Concrete instances of the claim C7 properties. -/
theorem c7_metering_properties_witness :
    0 ≤ meterNormalize (-70) ∧ meterNormalize (-70) = 0 ∧
      meterNormalize (-30) ≤ 1 ∧
      (appendMeter [] 1).length ≤ maxMeteringValues ∧
      appendMeter [] 1 <:+ [] ++ [1] :=
  ⟨c7_metering_properties.1 (-70),
   c7_metering_properties.2.1 (-70) (by norm_num),
   c7_metering_properties.2.2.1 (-30) (by norm_num),
   c7_metering_properties.2.2.2.1 [] 1,
   c7_metering_properties.2.2.2.2 [] 1⟩

theorem segTick_cases (c : Nat) (i : TickInput) :
    segTick c i = (c, []) ∨ segTick c i = (c + 1, [c]) := by
  obtain ⟨hr, ir, hu, d, ss⟩ := i
  unfold segTick
  cases hr <;> cases ir <;> cases hu <;> cases ss <;>
    by_cases hd : d < 500 <;> simp [hd]

theorem rotator_range_invariant (ticks : List TickInput) :
    ∀ c : Nat, ∃ d : Nat,
      ticks.foldl rotatorStep (c, List.range c) = (d, List.range d) := by
  induction ticks with
  | nil =>
    intro c
    exact ⟨c, rfl⟩
  | cons t ts ih =>
    intro c
    have hstep : rotatorStep (c, List.range c) t
        = ((segTick c t).1, List.range (segTick c t).1) := by
      rcases segTick_cases c t with h | h <;>
        simp [rotatorStep, h, List.range_succ]
    rw [List.foldl_cons, hstep]
    exact ih (segTick c t).1

/-- Claim C8: within one session the sequence numbers handed downstream by
the rotation ticks are exactly 0, 1, ..., counter-1 for every tick firing
pattern, hence pairwise strictly increasing, and the first emitted number
is 0. -/
theorem c8_sequence_numbers (ticks : List TickInput) :
    (runRotator ticks).2 = List.range (runRotator ticks).1 ∧
    List.Pairwise (· < ·) (runRotator ticks).2 ∧
    ((runRotator ticks).2 ≠ [] → (runRotator ticks).2.head? = some 0) := by
  have h0 : runRotator ticks = ticks.foldl rotatorStep (0, List.range 0) := rfl
  obtain ⟨d, hd⟩ := rotator_range_invariant ticks 0
  rw [h0, hd]
  refine ⟨rfl, List.pairwise_lt_range d, ?_⟩
  intro hne
  cases d with
  | zero => simp at hne
  | succ k =>
    rw [List.range_succ_eq_map]
    rfl

/-- Concrete instance of claim C8: a single successful tick emits sequence
number 0. -/
theorem c8_sequence_numbers_witness :
    (runRotator [⟨true, true, true, 600, true⟩]).2 ≠ [] ∧
    (runRotator [⟨true, true, true, 600, true⟩]).2.head? = some 0 :=
  ⟨by decide, (c8_sequence_numbers [⟨true, true, true, 600, true⟩]).2.2 (by decide)⟩

/-- Claim C9 counterexample: the App.js message handler parses with no
try/catch, so a message that fails to decode makes the exception escape the
handler instead of being logged and dropped. -/
theorem c9_counterexample :
    appOnMessage none true [] = Except.error () ∧
    appOnMessage none true [] ≠ Except.ok [] := by
  exact ⟨rfl, fun h => Except.noConfusion h⟩

/-- Claim C9 (amended): the DeepgramService message handler catches decode
failures, logs them, and drops the message: a malformed message anywhere in
the inbound sequence surfaces no event and changes nothing about the events
of the other messages. -/
theorem c9_malformed_dropped (pre post : List (Option DGResponse)) :
    runServiceMessages (pre ++ none :: post) = runServiceMessages (pre ++ post) ∧
    (serviceOnMessage none).1 = [] ∧
    (serviceOnMessage none).2 = ["Error parsing Deepgram response"] := by
  refine ⟨?_, rfl, rfl⟩
  induction pre with
  | nil => simp [runServiceMessages, serviceOnMessage]
  | cons m ms ih =>
    simp only [List.cons_append, runServiceMessages, List.foldr_cons] at ih ⊢
    rw [ih]

/-- Claim C10: a well-formed Results message whose first alternative has an
absent, empty, or whitespace-only transcript surfaces no event, and
applying its events to any transcript leaves the transcript unchanged. -/
theorem c10_blank_transcript_ignored (r : DGResponse) (firstAlt : Option Str)
    (rest : List (Option Str))
    (hty : r.rtype = some "Results")
    (halts : r.channelAlternatives = some (firstAlt :: rest))
    (hblank : jsTrim (firstAlt.getD []) = []) :
    (serviceOnMessage (some r)).1 = [] ∧
    ∀ (b : Bool) (tr : Str),
      applyServiceEvents b tr (serviceOnMessage (some r)).1 = tr := by
  have hev : (serviceOnMessage (some r)).1 = [] := by
    cases firstAlt with
    | none => simp [serviceOnMessage, hty, halts]
    | some t =>
      have ht : jsTrim t = [] := by simpa using hblank
      simp [serviceOnMessage, hty, halts, transcriptTruthy, ht]
  refine ⟨hev, ?_⟩
  intro b tr
  rw [hev]
  rfl

/-- Concrete instance of claim C10: a Results message whose transcript is
two spaces surfaces no event and leaves a transcript unchanged. -/
theorem c10_blank_transcript_ignored_witness :
    (serviceOnMessage
        (some ⟨some "Results", some [some [' ', ' ']], false⟩)).1 = [] ∧
    applyServiceEvents true ['h', 'i']
        (serviceOnMessage
          (some ⟨some "Results", some [some [' ', ' ']], false⟩)).1
      = ['h', 'i'] :=
  ⟨(c10_blank_transcript_ignored ⟨some "Results", some [some [' ', ' ']], false⟩
      (some [' ', ' ']) [] rfl rfl (by decide)).1,
   (c10_blank_transcript_ignored ⟨some "Results", some [some [' ', ' ']], false⟩
      (some [' ', ' ']) [] rfl rfl (by decide)).2 true ['h', 'i']⟩
